import Mathlib

/-!
Verification of the paginated / windowed streaming fetch engine of the
`orijtech/coinbase` Go client (files `v2/accounts.go`, `v2/addresses.go`,
`v2/trades.go`), against its natural-language specification.

The embedding is shallow: Go `time.Time` values are modelled as `Int`
nanoseconds since the epoch with the Go zero time at `0`, `time.Duration`
as `Int` nanoseconds, Go `int64`/`int` as `Int` (the counters involved
never approach the 64-bit boundary), a Go `error` value as `GoErr`, and
the network as an oracle function supplied per run.  The driver goroutine
in each stream runs an unbounded `for` loop; it is embedded as a
fuel-indexed recursion, and termination statements quantify over all
sufficiently large fuel.
-/

namespace Coinbase

/-- A Go `error` value, identified by its message (the code only ever
constructs errors with `errors.New` and compares them by identity). -/
structure GoErr where
  msg : String
deriving Repr, DecidableEq

/-- `errors.New("expecting a non-empty accountID")` from `accounts.go`. -/
def errEmptyAccountID : GoErr := ⟨"expecting a non-empty accountID"⟩

/-- `errors.New("expecting a non-blank product")` from `trades.go`. -/
def errBlankProduct : GoErr := ⟨"expecting a non-blank product"⟩

/-- Go `strings.TrimSpace`: drop leading and trailing whitespace. -/
def trimSpace (s : String) : String :=
  String.mk (((s.toList.dropWhile Char.isWhitespace).reverse.dropWhile
    Char.isWhitespace).reverse)

/-- One nanosecond per Go `time.Duration` unit; `time.Millisecond`,
`time.Second` and `time.Hour` in those units. -/
def nsPerMillisecond : Int := 1000000

/-- Go `time.Second` in nanoseconds. -/
def nsPerSecond : Int := 1000000000

/-- Go `time.Hour` in nanoseconds. -/
def nsPerHour : Int := 3600 * nsPerSecond

/-- `const NoThrottle int64 = -1` from `accounts.go`. -/
def NoThrottle : Int := -1

/-- The throttle computation of `ListAccounts` (`accounts.go`):
`if req.ThrottleDurationMs != NoThrottle && req.ThrottleDurationMs > 0 then
throttleDuration = ThrottleDurationMs * time.Millisecond` with the
zero value `0` otherwise.  Result in nanoseconds. -/
def accountsThrottleDuration (ms : Int) : Int :=
  if ms ≠ NoThrottle ∧ ms > 0 then ms * nsPerMillisecond else 0

/-- The throttle computation of `ListAddresses` (`addresses.go`), the
same shape as the one in `ListAccounts`. -/
def addressesThrottleDuration (ms : Int) : Int :=
  if ms ≠ NoThrottle ∧ ms > 0 then ms * nsPerMillisecond else 0

/-- The throttle computation of `CandleSticks` (`trades.go`):
`if ocsr.ThrottleDurationMs != NoThrottle { if > 0 { ms } else { 350ms } }`. -/
def candleSticksThrottleDuration (ms : Int) : Int :=
  if ms ≠ NoThrottle then
    (if ms > 0 then ms * nsPerMillisecond else 350 * nsPerMillisecond)
  else 0

/-- `maxPageChecker` from `accounts.go`: the page-exceeds predicate.
`if maxPage <= 0 { return false }; return pageNumber > maxPage`. -/
def maxPageChecker (maxPage : Int) (pageNumber : Int) : Bool :=
  if maxPage ≤ 0 then false else pageNumber > maxPage

/-! ## The canceler (`makeCanceler` in `accounts.go`)

`makeCanceler` returns a channel and a function that closes it through a
`sync.Once`.  Closing an already-closed Go channel faults at runtime;
`sync.Once.Do` runs its body at most once and serialises concurrent
callers, so any concurrent set of invocations is equivalent to some
sequence of atomic invocations.  The state records whether the `Once`
has fired and whether the channel is closed. -/

/-- A Go runtime fault (e.g. `close of closed channel`). -/
structure RuntimeFault where
  msg : String
deriving Repr, DecidableEq

/-- State of the canceler returned by `makeCanceler`. -/
structure CancelerState where
  onceDone : Bool
  chanClosed : Bool
deriving Repr, DecidableEq

/-- The freshly made canceler: `Once` not fired, channel open. -/
def initCanceler : CancelerState := ⟨false, false⟩

/-- Go `close(signaler)`: faults if the channel is already closed,
otherwise marks it closed (notifying every waiter). -/
def closeChan (s : CancelerState) : Except RuntimeFault CancelerState :=
  if s.chanClosed then Except.error ⟨"close of closed channel"⟩
  else Except.ok { s with chanClosed := true }

/-- `sync.Once.Do f`: a no-op when the `Once` has already fired,
otherwise fires it and runs `f`. -/
def onceDo (f : CancelerState → Except RuntimeFault CancelerState)
    (s : CancelerState) : Except RuntimeFault CancelerState :=
  if s.onceDone then Except.ok s else f { s with onceDone := true }

/-- The cancel function returned by `makeCanceler`:
`closeOnce.Do(func() { close(signaler) })`. -/
def cancelFn (s : CancelerState) : Except RuntimeFault CancelerState :=
  onceDo closeChan s

/-- `n` successive invocations of the cancel function on a fresh
canceler (concurrent invocations serialise through the `sync.Once`). -/
def cancelN : Nat → Except RuntimeFault CancelerState
  | 0 => Except.ok initCanceler
  | n + 1 =>
    match cancelN n with
    | Except.ok s => cancelFn s
    | Except.error e => Except.error e

/-! ## The Sequential Page Streamer (`ListAccounts`, `ListAddresses`)

Both drivers run the same loop: fetch the current URI, emit a page
carrying the current page number, return on a fetch error, stop when the
next page number exceeds the cap or the page is empty, otherwise take the
next URI from the response envelope, wait on the throttle/cancel select,
and break when the next URI is empty.  The three failure points of one
iteration (`http.NewRequest`, `doAuthAndReq`, `json.Unmarshal`) each set
`page.Err` and return, so the fetch oracle collapses them into one
`Except`; on success it yields the decoded items and the `NextURI`
extracted from the pagination envelope (`""` when absent).  The oracle is
keyed by the iteration number, which determines the URI fetched; the
cancel oracle says whether the canceler wins the `select` after a given
iteration. -/

/-- One delivered page (`AccountsPage` / `AddressPage`): items, the
page number, and the optional terminal error. -/
structure SeqPage (α : Type) where
  items : List α
  pageNumber : Int
  err : Option GoErr
deriving Repr, DecidableEq

/-- Result of one fetch: decoded items and the next URI (`""` = none). -/
abbrev FetchResult (α : Type) := Except GoErr (List α × String)

/-- The driver loop shared by `ListAccounts` and `ListAddresses`,
fuel-indexed, starting at iteration `i` (the Go `pageNumber` variable
equals the iteration count).  Returns the pages sent on the channel and
whether the goroutine has returned (stream closed) within the fuel. -/
def seqPagesLoop (fetch : Nat → FetchResult α) (cancel : Nat → Bool)
    (maxPage : Int) : Nat → Nat → List (SeqPage α) × Bool
  | 0, _ => ([], false)
  | fuel + 1, i =>
    match fetch i with
    | Except.error e => ([⟨[], (i : Int), some e⟩], true)
    | Except.ok (items, nextURI) =>
      let page : SeqPage α := ⟨items, (i : Int), none⟩
      if maxPageChecker maxPage ((i : Int) + 1) || items.isEmpty then
        ([page], true)
      else if cancel i then
        ([page], true)
      else if nextURI = "" then
        ([page], true)
      else
        let rest := seqPagesLoop fetch cancel maxPage fuel (i + 1)
        (page :: rest.1, rest.2)

/-- The `Account` record of `accounts.go` (payload fields only; the
engine never inspects them). -/
structure Account where
  id : String
  name : String
  primary : Bool
  type : String
  currency : String
deriving Repr, DecidableEq

/-- The `Address` record of `addresses.go` (payload fields only). -/
structure Address where
  id : String
  address : String
deriving Repr, DecidableEq

/-- `AccountsRequest` fields from `accounts.go`. -/
structure AccountsRequest where
  maxPage : Int
  accountsPerPage : Int
  startingAccountID : String
  endingAccountID : String
  orderBy : String
  throttleDurationMs : Int
deriving Repr, DecidableEq

/-- The zero-valued `AccountsRequest` (`new(AccountsRequest)`). -/
def zeroAccountsRequest : AccountsRequest := ⟨0, 0, "", "", "", 0⟩

/-- `AddressesRequest` fields from `addresses.go`. -/
structure AddressesRequest where
  accountID : String
  maxPage : Int
  addressesPerPage : Int
  startingAddressID : String
  endingAddressID : String
  orderBy : String
  throttleDurationMs : Int
deriving Repr, DecidableEq

/-- The synchronous part of `ListAccounts`: a nil request is replaced by
the zero-valued request, and the call always returns a non-nil response
with a nil error; the value carried is the request the driver uses. -/
def listAccountsSync (req : Option AccountsRequest) :
    Except GoErr AccountsRequest :=
  Except.ok (req.getD zeroAccountsRequest)

/-- `AddressesRequest.Validate` from `addresses.go`:
`alReq == nil || strings.TrimSpace(alReq.AccountID) == ""` rejects. -/
def addressesRequestValidate : Option AddressesRequest → Option GoErr
  | none => some errEmptyAccountID
  | some r => if trimSpace r.accountID = "" then some errEmptyAccountID else none

/-- The synchronous part of `ListAddresses`: validate, then start. -/
def listAddressesSync (req : Option AddressesRequest) :
    Except GoErr AddressesRequest :=
  match addressesRequestValidate req with
  | some e => Except.error e
  | none => Except.ok (req.getD ⟨"", 0, 0, "", "", "", 0⟩)

/-- The pages sent by the `ListAccounts` driver goroutine within `fuel`
iterations, for a given fetch and cancel oracle. -/
def listAccountsPages (req : AccountsRequest)
    (fetch : Nat → FetchResult Account) (cancel : Nat → Bool)
    (fuel : Nat) : List (SeqPage Account) × Bool :=
  seqPagesLoop fetch cancel req.maxPage fuel 0

/-- The pages sent by the `ListAddresses` driver goroutine within `fuel`
iterations, for a given fetch and cancel oracle. -/
def listAddressesPages (req : AddressesRequest)
    (fetch : Nat → FetchResult Address) (cancel : Nat → Bool)
    (fuel : Nat) : List (SeqPage Address) × Bool :=
  seqPagesLoop fetch cancel req.maxPage fuel 0

/-! ## The Windowed Concurrent Fetcher (`CandleSticks` in `trades.go`)

Times are `Int` nanoseconds; the Go zero `time.Time` is `0`, so
`t.After(zeroTime)` is `t > 0` and `t.Equal(zeroTime)` is `t = 0`.
`time.Duration` division is `int64` division truncating toward zero,
i.e. `Int.tdiv`. -/

/-- The caller-facing `CandleStickRequest` of `trades.go`. -/
structure CandleStickRequest where
  product : String
  startTime : Int
  endTime : Int
  maxPageNumber : Int
  throttleDurationMs : Int
  granularityInSeconds : Int
deriving Repr, DecidableEq

/-- `var zeroTime time.Time` of `trades.go`. -/
def zeroTime : Int := 0

/-- `CandleStickRequest.Validate`: `csr == nil || csr.Product == ""`
rejects with `errBlankProduct` (no trimming here). -/
def candleStickRequestValidate : Option CandleStickRequest → Option GoErr
  | none => some errBlankProduct
  | some r => if r.product = "" then some errBlankProduct else none

/-- The synchronous part of `CandleSticks`: validate, then start. -/
def candleSticksSync (req : Option CandleStickRequest) :
    Except GoErr CandleStickRequest :=
  match candleStickRequestValidate req with
  | some e => Except.error e
  | none => Except.ok (req.getD ⟨"", 0, 0, 0, 0, 0⟩)

/-- `canPaginateTime := minStartTime.After(zeroTime) && maxEndTime.After(minStartTime)`. -/
def canPaginateTime (csr : CandleStickRequest) : Bool :=
  csr.startTime > zeroTime ∧ csr.endTime > csr.startTime

/-- `durationIncrement := 5 * time.Hour`, replaced by the granularity in
seconds when `0 < gd ≤ 30`. -/
def durationIncrement (csr : CandleStickRequest) : Int :=
  if 0 < csr.granularityInSeconds ∧ csr.granularityInSeconds ≤ 30 then
    csr.granularityInSeconds * nsPerSecond
  else 5 * nsPerHour

/-- The local `maxPageNumber` after the overwrite
`if minStartTime.After(zeroTime) && canPaginateTime { maxPageNumber =
int64(maxEndTime.Sub(minStartTime) / durationIncrement) }`; Go duration
division truncates toward zero (`Int.tdiv`). -/
def effectiveMaxPageNumber (csr : CandleStickRequest) : Int :=
  if csr.startTime > zeroTime ∧ canPaginateTime csr then
    Int.tdiv (csr.endTime - csr.startTime) (durationIncrement csr)
  else csr.maxPageNumber

/-- `shouldTerminate` of `trades.go`, closing over the request's
`minStartTime`, `maxEndTime` and the overwritten `maxPageNumber`. -/
def shouldTerminate (csr : CandleStickRequest)
    (startTime endTime pageNumber : Int) : Bool :=
  if csr.startTime = zeroTime ∨ csr.endTime = zeroTime then true
  else if startTime > csr.endTime ∨ endTime > csr.endTime then true
  else effectiveMaxPageNumber csr > 0 ∧ pageNumber ≥ effectiveMaxPageNumber csr

/-- One generated window: the job id (`pageNumber` at submission time)
and the `[startTime, endTime)` bounds sent to the API. -/
structure TimeWindow where
  id : Int
  startTime : Int
  endTime : Int
deriving Repr, DecidableEq

/-- The initial `endTime` of the generator: `endTime = startTime +
durationIncrement` when `canPaginateTime`, else the request's end. -/
def initialEndTime (csr : CandleStickRequest) : Int :=
  if canPaginateTime csr then csr.startTime + durationIncrement csr
  else csr.endTime

/-- The window-generator goroutine of `CandleSticks`, fuel-indexed.
Each iteration submits a job with id `pageNumber + 1` (the increment
happens before the send), then returns when `shouldTerminate` holds or
the canceler wins the throttle `select`; otherwise it advances
`startTime, endTime = endTime, endTime + durationIncrement`.  `i` is the
Go `pageNumber` variable before the increment. -/
def genWindows (csr : CandleStickRequest) (cancel : Nat → Bool) :
    Nat → Int → Int → Nat → List TimeWindow
  | 0, _, _, _ => []
  | fuel + 1, s, e, i =>
    let w : TimeWindow := ⟨(i : Int) + 1, s, e⟩
    if shouldTerminate csr s e ((i : Int) + 1) then [w]
    else if cancel i then [w]
    else w :: genWindows csr cancel fuel e (e + durationIncrement csr) (i + 1)

/-- All windows generated (and submitted as jobs) by `CandleSticks`
within `fuel` iterations. -/
def candleSticksWindows (csr : CandleStickRequest) (cancel : Nat → Bool)
    (fuel : Nat) : List TimeWindow :=
  genWindows csr cancel fuel csr.startTime (initialEndTime csr) 0

/-- `semalim.Run(jobsChan, 4)` in `CandleSticks`: the worker count. -/
def candleStickPoolSize : Nat := 4

/-! ## The bounded-concurrency job pool

Modelled from the spec: the job pool itself (`semalim.Run`) is an
external dependency (`github.com/odeke-em/semalim`), not part of this
repository's sources; §4.3 of the spec describes it as executing a lazy
sequence of identifiable jobs with at most N concurrently in flight,
emitting each job's labeled result in completion order.  The model is a
small-step transition system over the pool's state: a job may be
dispatched only while fewer than N are in flight, and a completed job
moves from in-flight to completed. -/

/-- Modelled from the spec: the observable state of the job pool —
jobs not yet dispatched, jobs in flight, completed jobs in completion
order (most recent first). -/
structure PoolState where
  pending : List Int
  inflight : List Int
  completed : List Int
deriving Repr, DecidableEq

/-- Modelled from the spec: one scheduler transition of the pool with
worker count `N`. -/
inductive PoolStep (N : Nat) : PoolState → PoolState → Prop
  | dispatch (j : Int) (rest infl comp : List Int)
      (hcap : infl.length < N) :
      PoolStep N ⟨j :: rest, infl, comp⟩ ⟨rest, j :: infl, comp⟩
  | complete (j : Int) (pend infl comp : List Int)
      (hmem : j ∈ infl) :
      PoolStep N ⟨pend, infl, comp⟩ ⟨pend, infl.erase j, j :: comp⟩

/-- Modelled from the spec: the pool states reachable from `init`. -/
inductive PoolReachable (N : Nat) (init : PoolState) : PoolState → Prop
  | refl : PoolReachable N init init
  | step {s s' : PoolState} : PoolReachable N init s → PoolStep N s s' →
      PoolReachable N init s'

/-- The pool's initial state for a given job list: nothing dispatched. -/
def poolInit (jobs : List Int) : PoolState := ⟨jobs, [], []⟩

/-- The number of windows the generator produces when both times are
set and nobody cancels: the derived cap when positive, else a single
window (derived below; the cap `effectiveMaxPageNumber` is nonnegative
in this situation). -/
def numWindows (csr : CandleStickRequest) : Nat :=
  max (effectiveMaxPageNumber csr).toNat 1

/-- The `k`-th generated window (counting from 0) of a paginating run:
id `k+1`, bounds `[start + k·inc, start + (k+1)·inc)`. -/
def windowAt (csr : CandleStickRequest) (k : Nat) : TimeWindow :=
  ⟨(k : Int) + 1, csr.startTime + (k : Int) * durationIncrement csr,
   csr.startTime + ((k : Int) + 1) * durationIncrement csr⟩

/-- The effective window cap as the spec's words describe it (the
refinement comparator for the window-cap claim): the overall span
divided by the increment, unless the caller supplied an explicit
smaller positive maximum, which then becomes the cap instead. -/
def specEffectiveCap (csr : CandleStickRequest) : Int :=
  let derived := Int.tdiv (csr.endTime - csr.startTime) (durationIncrement csr)
  if 0 < csr.maxPageNumber ∧ csr.maxPageNumber < derived then csr.maxPageNumber
  else derived

/-! ## Index discipline of the two streamers -/

/-- Pages emitted by the sequential driver loop starting at iteration
`i` carry the consecutive page numbers `i, i+1, ...`, whatever the
fetch and cancel oracles do. -/
theorem seqPagesLoop_pageNumbers (fetch : Nat → FetchResult α)
    (cancel : Nat → Bool) (maxPage : Int) :
    ∀ fuel i : Nat,
      (seqPagesLoop fetch cancel maxPage fuel i).1.map (fun p => p.pageNumber)
        = (List.range' i (seqPagesLoop fetch cancel maxPage fuel i).1.length).map
            Int.ofNat := by
  intro fuel
  induction fuel with
  | zero => intro i; rfl
  | succ fuel ih =>
    intro i
    rcases hf : fetch i with e | pr
    · simp [seqPagesLoop, hf]
    · obtain ⟨items, nextURI⟩ := pr
      simp only [seqPagesLoop, hf]
      split
      · simp
      · split
        · simp
        · split
          · simp
          · simp only [List.map_cons, List.length_cons]
            rw [List.range'_succ i _ 1, List.map_cons]
            rw [ih (i + 1)]
            rfl

/-- Windows generated by `genWindows` starting with the Go
`pageNumber` variable at `i` carry the consecutive ids `i+1, i+2, ...`,
whatever the request and cancel oracle. -/
theorem genWindows_ids (csr : CandleStickRequest) (cancel : Nat → Bool) :
    ∀ (fuel : Nat) (s e : Int) (i : Nat),
      (genWindows csr cancel fuel s e i).map (fun w => w.id)
        = (List.range' (i + 1)
            (genWindows csr cancel fuel s e i).length).map Int.ofNat := by
  intro fuel
  induction fuel with
  | zero => intro s e i; rfl
  | succ fuel ih =>
    intro s e i
    simp only [genWindows]
    split
    · simp
    · split
      · simp
      · simp only [List.map_cons, List.length_cons]
        rw [List.range'_succ (i + 1) _ 1, List.map_cons]
        rw [ih]
        rfl

/-- When every fetch succeeds with a non-empty page and a non-empty
next URI and the cap is the positive `M`, the driver starting at
iteration `i ≤ M` emits exactly the pages `i..M` and returns. -/
theorem seqPagesLoop_good (fetch : Nat → FetchResult α) (M : Nat)
    (hM : 1 ≤ M)
    (hfetch : ∀ i : Nat, ∃ items next, fetch i = Except.ok (items, next) ∧
      items ≠ [] ∧ next ≠ "") :
    ∀ fuel i, i ≤ M → M + 1 - i ≤ fuel →
      (seqPagesLoop fetch (fun _ => false) (M : Int) fuel i).1.map
          (fun p => p.pageNumber) = (List.range' i (M + 1 - i)).map Int.ofNat ∧
      (seqPagesLoop fetch (fun _ => false) (M : Int) fuel i).2 = true := by
  intro fuel
  induction fuel with
  | zero => intro i h1 h2; omega
  | succ fuel ih =>
    intro i h1 h2
    obtain ⟨items, next, hfi, hne, hnn⟩ := hfetch i
    have hie : items.isEmpty = false := by
      cases items with
      | nil => exact absurd rfl hne
      | cons a l => rfl
    by_cases hiM : i = M
    · subst hiM
      have hmp : maxPageChecker (i : Int) ((i : Int) + 1) = true := by
        simp only [maxPageChecker]
        rw [if_neg (by omega : ¬ (i : Int) ≤ 0)]
        simp
      have hsub : i + 1 - i = 1 := by omega
      simp [seqPagesLoop, hfi, hie, hmp, hsub]
    · have hlt : i < M := lt_of_le_of_ne h1 hiM
      have hmp : maxPageChecker (M : Int) ((i : Int) + 1) = false := by
        simp only [maxPageChecker]
        rw [if_neg (by omega : ¬ (M : Int) ≤ 0)]
        simp only [gt_iff_lt, decide_eq_false_iff_not, not_lt]
        omega
      obtain ⟨ihmap, ihclosed⟩ := ih (i + 1) (by omega) (by omega)
      have hsub : M + 1 - i = (M + 1 - (i + 1)) + 1 := by omega
      simp only [seqPagesLoop, hfi, hie, hmp, Bool.or_self, Bool.false_eq_true,
        if_false, if_neg hnn, List.map_cons]
      rw [hsub, List.range'_succ i _ 1, List.map_cons]
      exact ⟨by rw [ihmap]; rfl, ihclosed⟩

/-- When the fetches before iteration `K` succeed with non-empty pages
and next URIs, the fetch at `K` errors, and the cap does not cut the
stream before `K`, the driver starting at `i ≤ K` emits the pages
`i..K`, all error-free except the last, which carries the error, and
returns. -/
theorem seqPagesLoop_error_at (fetch : Nat → FetchResult α)
    (maxPage : Int) (K : Nat) (e : GoErr)
    (hmp : maxPage ≤ 0 ∨ (K : Int) ≤ maxPage)
    (hok : ∀ i, i < K → ∃ items next, fetch i = Except.ok (items, next) ∧
      items ≠ [] ∧ next ≠ "")
    (herr : fetch K = Except.error e) :
    ∀ fuel i, i ≤ K → K + 1 - i ≤ fuel →
      (seqPagesLoop fetch (fun _ => false) maxPage fuel i).1.map
          (fun p => p.pageNumber) = (List.range' i (K + 1 - i)).map Int.ofNat ∧
      (seqPagesLoop fetch (fun _ => false) maxPage fuel i).1.map
          (fun p => p.err) = List.replicate (K - i) none ++ [some e] ∧
      (seqPagesLoop fetch (fun _ => false) maxPage fuel i).2 = true := by
  intro fuel
  induction fuel with
  | zero => intro i h1 h2; omega
  | succ fuel ih =>
    intro i h1 h2
    by_cases hiK : i = K
    · subst hiK
      have hsub : i + 1 - i = 1 := by omega
      simp [seqPagesLoop, herr, hsub]
    · have hlt : i < K := lt_of_le_of_ne h1 hiK
      obtain ⟨items, next, hfi, hne, hnn⟩ := hok i hlt
      have hie : items.isEmpty = false := by
        cases items with
        | nil => exact absurd rfl hne
        | cons a l => rfl
      have hchk : maxPageChecker maxPage ((i : Int) + 1) = false := by
        simp only [maxPageChecker]
        rcases hmp with h | h
        · rw [if_pos h]
        · rw [if_neg (by omega : ¬ maxPage ≤ 0)]
          simp only [gt_iff_lt, decide_eq_false_iff_not, not_lt]
          omega
      obtain ⟨ihmap, iherr, ihclosed⟩ := ih (i + 1) (by omega) (by omega)
      have hsub : K + 1 - i = (K + 1 - (i + 1)) + 1 := by omega
      have hsub2 : K - i = (K - (i + 1)) + 1 := by omega
      simp only [seqPagesLoop, hfi, hie, hchk, Bool.or_self, Bool.false_eq_true,
        if_false, if_neg hnn, List.map_cons]
      rw [hsub, List.range'_succ i _ 1, List.map_cons, hsub2,
        List.replicate_succ, List.cons_append]
      exact ⟨by rw [ihmap]; rfl, by rw [iherr], ihclosed⟩

/-! ## Claim C2: the page-exceeds predicate -/

/-- C2.  `maxPageChecker` never triggers when the request's max-page
value is `≤ 0`; when it is positive it triggers exactly when the page
number exceeds it, so a `ListAccounts` stream whose fetches keep
producing non-empty pages with next URIs delivers the pages numbered
`0` through max-page and then closes. -/
theorem max_page_predicate_claim :
    (∀ maxPage p : Int, maxPage ≤ 0 → maxPageChecker maxPage p = false) ∧
    (∀ maxPage p : Int, 0 < maxPage →
      (maxPageChecker maxPage p = true ↔ maxPage < p)) ∧
    (∀ (M : Nat) (req : AccountsRequest) (fetch : Nat → FetchResult Account),
      req.maxPage = (M : Int) → 1 ≤ M →
      (∀ i : Nat, ∃ items next, fetch i = Except.ok (items, next) ∧
        items ≠ [] ∧ next ≠ "") →
      ∀ fuel : Nat, M + 1 ≤ fuel →
        (listAccountsPages req fetch (fun _ => false) fuel).1.map
            (fun p => p.pageNumber) = (List.range (M + 1)).map Int.ofNat ∧
        (listAccountsPages req fetch (fun _ => false) fuel).2 = true) := by
  refine ⟨?_, ?_, ?_⟩
  · intro maxPage p h
    simp [maxPageChecker, h]
  · intro maxPage p h
    simp only [maxPageChecker]
    rw [if_neg (by omega : ¬ maxPage ≤ 0)]
    simp
  · intro M req fetch hreq hM hfetch fuel hfuel
    have h := seqPagesLoop_good fetch M hM hfetch fuel 0 (by omega) (by omega)
    rw [List.range_eq_range']
    simpa [listAccountsPages, hreq] using h

/-- C2 witness: max-page 1 with ever-full pages delivers pages 0 and 1
and closes. -/
theorem max_page_predicate_claim_witness :
    (listAccountsPages ⟨1, 0, "", "", "", 0⟩
        (fun _ => Except.ok ([⟨"a", "n", false, "t", "c"⟩], "u"))
        (fun _ => false) 2).1.map (fun p => p.pageNumber)
      = (List.range 2).map Int.ofNat ∧
    (listAccountsPages ⟨1, 0, "", "", "", 0⟩
        (fun _ => Except.ok ([⟨"a", "n", false, "t", "c"⟩], "u"))
        (fun _ => false) 2).2 = true :=
  max_page_predicate_claim.2.2 1 _ _ rfl (by decide)
    (fun _ => ⟨[⟨"a", "n", false, "t", "c"⟩], "u", rfl, by decide, by decide⟩)
    2 (by decide)

/-! ## Claim C3: a fetch error is stream-terminal -/

/-- C3.  If the fetch for page `K` is the first to return an error (all
earlier fetches succeed with non-empty pages and next URIs) and the
max-page cap does not cut the stream before `K`, then `ListAddresses`
delivers exactly `K+1` pages with indices `0..K`, all error-free except
the last, which carries the error in its `Err` field, and the stream
then closes with no further page (the error is never a synchronous
return: the driver only writes it into the final page). -/
theorem seq_fetch_error_terminal_claim :
    ∀ (K : Nat) (req : AddressesRequest)
      (fetch : Nat → FetchResult Address) (e : GoErr),
      (req.maxPage ≤ 0 ∨ (K : Int) ≤ req.maxPage) →
      (∀ i, i < K → ∃ items next, fetch i = Except.ok (items, next) ∧
        items ≠ [] ∧ next ≠ "") →
      fetch K = Except.error e →
      ∀ fuel, K + 1 ≤ fuel →
        (listAddressesPages req fetch (fun _ => false) fuel).1.map
            (fun p => p.pageNumber) = (List.range (K + 1)).map Int.ofNat ∧
        (listAddressesPages req fetch (fun _ => false) fuel).1.map
            (fun p => p.err) = List.replicate K none ++ [some e] ∧
        (listAddressesPages req fetch (fun _ => false) fuel).2 = true := by
  intro K req fetch e hmp hok herr fuel hfuel
  have h := seqPagesLoop_error_at fetch req.maxPage K e hmp hok herr fuel 0
    (by omega) (by omega)
  rw [List.range_eq_range']
  simpa [listAddressesPages] using h

/-- C3 witness: a successful page 0 followed by an error at page 1
yields exactly the pages 0 and 1, the last carrying the error. -/
theorem seq_fetch_error_terminal_claim_witness :
    (listAddressesPages ⟨"acct", 0, 0, "", "", "", 0⟩
        (fun i => if i = 0 then Except.ok ([⟨"i", "a"⟩], "u")
          else Except.error ⟨"boom"⟩)
        (fun _ => false) 2).1.map (fun p => p.pageNumber)
      = (List.range 2).map Int.ofNat ∧
    (listAddressesPages ⟨"acct", 0, 0, "", "", "", 0⟩
        (fun i => if i = 0 then Except.ok ([⟨"i", "a"⟩], "u")
          else Except.error ⟨"boom"⟩)
        (fun _ => false) 2).1.map (fun p => p.err)
      = List.replicate 1 none ++ [some ⟨"boom"⟩] ∧
    (listAddressesPages ⟨"acct", 0, 0, "", "", "", 0⟩
        (fun i => if i = 0 then Except.ok ([⟨"i", "a"⟩], "u")
          else Except.error ⟨"boom"⟩)
        (fun _ => false) 2).2 = true :=
  seq_fetch_error_terminal_claim 1 _ _ ⟨"boom"⟩ (Or.inl (by decide))
    (fun i hi => by
      have h0 : i = 0 := by omega
      subst h0
      exact ⟨[⟨"i", "a"⟩], "u", rfl, by decide, by decide⟩)
    rfl 2 (by decide)

/-! ## Claim C1: page/window index discipline (corrected) -/

/-- C1 counterexample.  The first window generated by `CandleSticks` is
numbered 1, not 0: `pageNumber` is incremented before the job is
submitted.  For a 10-hour range with the default 5-hour increment the
generated windows carry ids `[1, 2]`, and no window carries index 0. -/
theorem first_window_index_counterexample :
    ((candleSticksWindows
        ⟨"ETH-USD", nsPerHour, nsPerHour + 10 * nsPerHour, 0, NoThrottle, 0⟩
        (fun _ => false) 5).map (fun w => w.id) = [1, 2]) ∧
    ¬ ((0 : Int) ∈ (candleSticksWindows
        ⟨"ETH-USD", nsPerHour, nsPerHour + 10 * nsPerHour, 0, NoThrottle, 0⟩
        (fun _ => false) 5).map (fun w => w.id)) := by
  constructor
  · rfl
  · decide

/-- C1 amended.  The Sequential Page Streamer (`ListAccounts`,
`ListAddresses`) delivers page indices that are strictly increasing,
gapless and start at 0; the Windowed Concurrent Fetcher
(`CandleSticks`) gives every generated window a unique index, gapless
from the first window's index — which is 1, not 0 (delivery order may
still differ from numeric order). -/
theorem page_index_discipline_amended :
    (∀ (req : AccountsRequest) (fetch : Nat → FetchResult Account)
        (cancel : Nat → Bool) (fuel : Nat),
      (listAccountsPages req fetch cancel fuel).1.map (fun p => p.pageNumber)
        = (List.range
            (listAccountsPages req fetch cancel fuel).1.length).map
              Int.ofNat) ∧
    (∀ (req : AddressesRequest) (fetch : Nat → FetchResult Address)
        (cancel : Nat → Bool) (fuel : Nat),
      (listAddressesPages req fetch cancel fuel).1.map (fun p => p.pageNumber)
        = (List.range
            (listAddressesPages req fetch cancel fuel).1.length).map
              Int.ofNat) ∧
    (∀ (csr : CandleStickRequest) (cancel : Nat → Bool) (fuel : Nat),
      (candleSticksWindows csr cancel fuel).map (fun w => w.id)
        = (List.range' 1
            (candleSticksWindows csr cancel fuel).length).map
              Int.ofNat) := by
  refine ⟨?_, ?_, ?_⟩
  · intro req fetch cancel fuel
    rw [List.range_eq_range']
    exact seqPagesLoop_pageNumbers fetch cancel req.maxPage fuel 0
  · intro req fetch cancel fuel
    rw [List.range_eq_range']
    exact seqPagesLoop_pageNumbers fetch cancel req.maxPage fuel 0
  · intro csr cancel fuel
    exact genWindows_ids csr cancel fuel csr.startTime (initialEndTime csr) 0

/-! ## Claim C7: idempotent cancellation -/

/-- C7.  Invoking the cancellation trigger made by `makeCanceler` once
closes the signal channel (notifying all waiters); invoking it again —
or any number `n ≥ 1` of times, concurrent invocations being serialised
by the `sync.Once` — neither faults (no `close of closed channel`) nor
re-closes the channel, and ends in the same terminal state as a single
invocation. -/
theorem canceler_idempotent_claim :
    cancelFn initCanceler = Except.ok ⟨true, true⟩ ∧
    cancelFn ⟨true, true⟩ = Except.ok ⟨true, true⟩ ∧
    ∀ n : Nat, cancelN (n + 1) = Except.ok ⟨true, true⟩ := by
  refine ⟨rfl, rfl, ?_⟩
  intro n
  induction n with
  | zero => rfl
  | succ n ih =>
    show (match cancelN (n + 1) with
      | Except.ok s => cancelFn s
      | Except.error e => Except.error e) = _
    rw [ih]
    rfl

/-! ## Claim C8: throttle interpretation (corrected) -/

/-- C8 counterexample.  For `ListAccounts` a zero throttle field does
not select any resource-specific default wait: the computed throttle
duration is `0`, exactly the same as with the disabling sentinel
`NoThrottle`; likewise for `ListAddresses`. -/
theorem throttle_zero_no_default_counterexample :
    accountsThrottleDuration 0 = accountsThrottleDuration NoThrottle ∧
    accountsThrottleDuration 0 = 0 ∧
    addressesThrottleDuration 0 = 0 := by
  refine ⟨rfl, rfl, rfl⟩

/-- C8 amended.  The throttle field is interpreted as: the sentinel
`NoThrottle = -1` disables throttling; a positive value sets the
inter-call wait to that many milliseconds.  A zero value selects the
350 ms default only for `CandleSticks`; for `ListAccounts` and
`ListAddresses` a zero value yields a zero throttle, identical to the
sentinel (no default wait exists there). -/
theorem throttle_interpretation_amended :
    (∀ ms : Int, accountsThrottleDuration ms =
        if 0 < ms then ms * nsPerMillisecond else 0) ∧
    (∀ ms : Int, addressesThrottleDuration ms =
        if 0 < ms then ms * nsPerMillisecond else 0) ∧
    (∀ ms : Int, candleSticksThrottleDuration ms =
        if ms = NoThrottle then 0
        else if 0 < ms then ms * nsPerMillisecond
        else 350 * nsPerMillisecond) := by
  refine ⟨?_, ?_, ?_⟩ <;> intro ms <;>
    simp only [accountsThrottleDuration, addressesThrottleDuration,
      candleSticksThrottleDuration, NoThrottle] <;>
    split_ifs <;> first | rfl | omega

/-! ## Claim C9: concurrency cap of the job pool -/

/-- C9.  In the job pool run by `CandleSticks` (worker count
`candleStickPoolSize = 4`, the constant passed to `semalim.Run`), every
state reachable from an initial state — for any job list, with no job
yet dispatched — has at most 4 jobs in flight. -/
theorem pool_concurrency_cap_claim (jobs : List Int) (s : PoolState)
    (h : PoolReachable candleStickPoolSize (poolInit jobs) s) :
    s.inflight.length ≤ candleStickPoolSize := by
  induction h with
  | refl => simp [poolInit]
  | step _ hstep ih =>
    cases hstep with
    | dispatch j rest infl comp hcap => simpa using hcap
    | complete j pend infl comp hmem =>
      exact le_trans (List.Sublist.length_le (List.erase_sublist j infl)) ih

/-- C9 witness: after dispatching one job of a ten-job batch, the pool
is in a reachable state and its in-flight count is within the cap. -/
theorem pool_concurrency_cap_claim_witness :
    (PoolState.mk [2, 3, 4, 5, 6, 7, 8, 9, 10] [1] []).inflight.length ≤
      candleStickPoolSize :=
  pool_concurrency_cap_claim [1, 2, 3, 4, 5, 6, 7, 8, 9, 10] _
    (PoolReachable.step PoolReachable.refl
      (PoolStep.dispatch 1 [2, 3, 4, 5, 6, 7, 8, 9, 10] [] [] (by decide)))

/-! ## Claim C10: synchronous failure behaviour -/

/-- C10.  `ListAccounts` never fails synchronously: every request,
including a nil one (replaced by the zero-valued request), yields a
non-nil response and a nil error.  In contrast, `ListAddresses` and
`CandleSticks` validate their request and return a synchronous error
when the required field is missing (nil request, blank account id after
trimming, empty product). -/
theorem list_accounts_never_fails_sync_claim :
    (∀ req, (listAccountsSync req).isOk = true) ∧
    listAccountsSync none = Except.ok zeroAccountsRequest ∧
    listAddressesSync none = Except.error errEmptyAccountID ∧
    (∀ r : AddressesRequest, trimSpace r.accountID = "" →
        listAddressesSync (some r) = Except.error errEmptyAccountID) ∧
    candleSticksSync none = Except.error errBlankProduct ∧
    (∀ r : CandleStickRequest, r.product = "" →
        candleSticksSync (some r) = Except.error errBlankProduct) := by
  refine ⟨fun req => rfl, rfl, rfl, ?_, rfl, ?_⟩
  · intro r hr
    simp [listAddressesSync, addressesRequestValidate, hr]
  · intro r hr
    simp [candleSticksSync, candleStickRequestValidate, hr]

/-! ## Closed form of the window generator -/

/-- The window increment is always positive. -/
theorem durationIncrement_pos (csr : CandleStickRequest) :
    0 < durationIncrement csr := by
  simp only [durationIncrement]
  split
  · rename_i h
    have hns : (0 : Int) < nsPerSecond := by norm_num [nsPerSecond]
    exact mul_pos h.1 hns
  · norm_num [nsPerHour, nsPerSecond]

/-- Unfolding of the pagination guard. -/
theorem canPaginateTime_iff (csr : CandleStickRequest) :
    canPaginateTime csr = true ↔
      0 < csr.startTime ∧ csr.startTime < csr.endTime := by
  simp [canPaginateTime, zeroTime]

/-- When the request can paginate, the cap local is overwritten with
span divided by increment (a Euclidean division here, as both operands
are nonnegative). -/
theorem effectiveMaxPageNumber_eq (csr : CandleStickRequest)
    (h : canPaginateTime csr = true) :
    effectiveMaxPageNumber csr
      = (csr.endTime - csr.startTime) / durationIncrement csr := by
  obtain ⟨h1, h2⟩ := (canPaginateTime_iff csr).1 h
  simp only [effectiveMaxPageNumber, zeroTime]
  rw [if_pos ⟨h1, h⟩]
  exact Int.tdiv_eq_ediv (by omega) (le_of_lt (durationIncrement_pos csr))

/-- Closed form of the generator: when both times are meaningfully set
and nobody cancels, starting from the `j`-th window the generator
produces exactly the windows `j .. numWindows-1` in order, each with id
`k+1` and bounds `[start + k·inc, start + (k+1)·inc)`. -/
theorem genWindows_closed_form (csr : CandleStickRequest)
    (hcan : canPaginateTime csr = true) :
    ∀ (fuel j : Nat), j < numWindows csr → numWindows csr - j ≤ fuel →
      genWindows csr (fun _ => false) fuel
          (csr.startTime + (j : Int) * durationIncrement csr)
          (csr.startTime + ((j : Int) + 1) * durationIncrement csr) j
        = (List.range' j (numWindows csr - j)).map (windowAt csr) := by
  obtain ⟨h1, h2⟩ := (canPaginateTime_iff csr).1 hcan
  have hinc : 0 < durationIncrement csr := durationIncrement_pos csr
  have hM := effectiveMaxPageNumber_eq csr hcan
  have hM0 : 0 ≤ effectiveMaxPageNumber csr := by
    rw [hM]; exact Int.ediv_nonneg (by omega) (le_of_lt hinc)
  have hMle : effectiveMaxPageNumber csr * durationIncrement csr
      ≤ csr.endTime - csr.startTime := by
    have ha := Int.ediv_add_emod (csr.endTime - csr.startTime)
      (durationIncrement csr)
    have hb := Int.emod_nonneg (csr.endTime - csr.startTime)
      (by omega : durationIncrement csr ≠ 0)
    have hc : effectiveMaxPageNumber csr * durationIncrement csr
        = durationIncrement csr
          * ((csr.endTime - csr.startTime) / durationIncrement csr) := by
      rw [hM]; ring
    linarith
  have hMub : csr.endTime - csr.startTime
      < (effectiveMaxPageNumber csr + 1) * durationIncrement csr := by
    have ha := Int.ediv_add_emod (csr.endTime - csr.startTime)
      (durationIncrement csr)
    have hb := Int.emod_lt_of_pos (csr.endTime - csr.startTime) hinc
    have hc : (effectiveMaxPageNumber csr + 1) * durationIncrement csr
        = durationIncrement csr
            * ((csr.endTime - csr.startTime) / durationIncrement csr)
          + durationIncrement csr := by
      rw [hM]; ring
    linarith
  have hnum1 : 1 ≤ numWindows csr := le_max_right _ 1
  intro fuel
  induction fuel with
  | zero => intro j hj hfuel; omega
  | succ fuel ih =>
    intro j hj hfuel
    simp only [genWindows]
    by_cases hlast : j + 1 = numWindows csr
    · have hterm : shouldTerminate csr
          (csr.startTime + (j : Int) * durationIncrement csr)
          (csr.startTime + ((j : Int) + 1) * durationIncrement csr)
          ((j : Int) + 1) = true := by
        simp only [shouldTerminate, zeroTime]
        rw [if_neg (by omega : ¬ (csr.startTime = 0 ∨ csr.endTime = 0))]
        by_cases hMpos : 1 ≤ effectiveMaxPageNumber csr
        · have hj1 : ((j : Int) + 1) = effectiveMaxPageNumber csr := by
            have : numWindows csr = (effectiveMaxPageNumber csr).toNat := by
              simp only [numWindows]
              omega
            omega
          split
          · rfl
          · simp only [decide_eq_true_eq]
            omega
        · have hMz : effectiveMaxPageNumber csr = 0 := by omega
          have hjz : j = 0 := by
            have : numWindows csr = 1 := by simp [numWindows, hMz]
            omega
          have hov : csr.startTime + ((j : Int) + 1) * durationIncrement csr
              > csr.endTime := by
            have hspan : csr.endTime - csr.startTime < durationIncrement csr := by
              have h5 := hMub
              rw [hMz] at h5
              linarith
            subst hjz
            push_cast
            linarith
          rw [if_pos (Or.inr hov)]
      rw [if_pos hterm]
      have hsub : numWindows csr - j = 1 := by omega
      rw [hsub]
      simp [windowAt]
    · have hjlt : j + 1 < numWindows csr := by omega
      have hMge : 2 ≤ effectiveMaxPageNumber csr := by
        have h3 : (2 : Nat) ≤ numWindows csr := by omega
        simp only [numWindows] at h3
        omega
      have hjM : ((j : Int) + 1) < effectiveMaxPageNumber csr := by
        have h3 : j + 1 < (effectiveMaxPageNumber csr).toNat := by
          have h4 : numWindows csr = (effectiveMaxPageNumber csr).toNat := by
            simp only [numWindows]; omega
          omega
        omega
      have hterm : shouldTerminate csr
          (csr.startTime + (j : Int) * durationIncrement csr)
          (csr.startTime + ((j : Int) + 1) * durationIncrement csr)
          ((j : Int) + 1) = false := by
        simp only [shouldTerminate, zeroTime]
        rw [if_neg (by omega : ¬ (csr.startTime = 0 ∨ csr.endTime = 0))]
        have hebound : ((j : Int) + 1) * durationIncrement csr
            ≤ csr.endTime - csr.startTime := by
          calc ((j : Int) + 1) * durationIncrement csr
              ≤ effectiveMaxPageNumber csr * durationIncrement csr :=
                mul_le_mul_of_nonneg_right (by omega) (le_of_lt hinc)
            _ ≤ csr.endTime - csr.startTime := hMle
        have hsbound : (j : Int) * durationIncrement csr
            ≤ csr.endTime - csr.startTime := by nlinarith
        rw [if_neg (by push_neg; constructor <;> omega :
          ¬ (csr.startTime + (j : Int) * durationIncrement csr > csr.endTime
            ∨ csr.startTime + ((j : Int) + 1) * durationIncrement csr
                > csr.endTime))]
        simp only [decide_eq_false_iff_not]
        intro hco
        omega
      rw [if_neg (by simp [hterm])]
      rw [if_neg (by simp)]
      have harith : csr.startTime + ((j : Int) + 1) * durationIncrement csr
            + durationIncrement csr
          = csr.startTime + (((j : Int) + 1) + 1) * durationIncrement csr := by
        ring
      have ihj := ih (j + 1) hjlt (by omega)
      push_cast at ihj
      rw [harith] at *
      have hsub : numWindows csr - j = (numWindows csr - (j + 1)) + 1 := by
        omega
      rw [hsub, List.range'_succ j _ 1, List.map_cons]
      refine List.cons_eq_cons.mpr ⟨rfl, ?_⟩
      exact ihj

/-- Entry-point form: for a paginating, uncancelled run with enough
fuel, `CandleSticks` generates exactly the windows `0 .. numWindows-1`. -/
theorem candleSticksWindows_closed_form (csr : CandleStickRequest)
    (hcan : canPaginateTime csr = true) (fuel : Nat)
    (hfuel : numWindows csr ≤ fuel) :
    candleSticksWindows csr (fun _ => false) fuel
      = (List.range' 0 (numWindows csr)).map (windowAt csr) := by
  have hnum1 : 1 ≤ numWindows csr := le_max_right _ 1
  have h := genWindows_closed_form csr hcan fuel 0 (by omega) (by omega)
  have hinit : initialEndTime csr = csr.startTime + durationIncrement csr := by
    simp [initialEndTime, hcan]
  have hz : csr.startTime + ((0 : Nat) : Int) * durationIncrement csr
      = csr.startTime := by push_cast; ring
  have hz1 : csr.startTime + (((0 : Nat) : Int) + 1) * durationIncrement csr
      = csr.startTime + durationIncrement csr := by push_cast; ring
  rw [hz, hz1] at h
  rw [candleSticksWindows, hinit, h]
  simp

/-- Consecutive images of `f` over a `range'` chain under `R` when `R`
links every `k` to `k+1`. -/
theorem chain_range_map {β : Type} (f : Nat → β) (R : β → β → Prop)
    (h : ∀ k : Nat, R (f k) (f (k + 1))) :
    ∀ n j : Nat, List.Chain' R ((List.range' j n).map f) := by
  intro n
  induction n with
  | zero => intro j; simp
  | succ n ih =>
    intro j
    rw [List.range'_succ j _ 1, List.map_cons]
    cases n with
    | zero => simp
    | succ n =>
      rw [List.range'_succ (j + 1) _ 1, List.map_cons]
      refine List.Chain'.cons (h j) ?_
      have h2 := ih (j + 1)
      rwa [List.range'_succ (j + 1) _ 1, List.map_cons] at h2

/-- Images of `f` over a `range'` are pairwise `R`-related when `R`
links every strictly ordered pair of indices. -/
theorem pairwise_range_map {β : Type} (f : Nat → β) (R : β → β → Prop)
    (h : ∀ j k : Nat, j < k → R (f j) (f k)) (s n : Nat) :
    List.Pairwise R ((List.range' s n).map f) := by
  rw [List.pairwise_map]
  have hp : (List.range' s n).Pairwise (· < ·) := by
    have h2 := List.pairwise_lt_range' s n 1 (by omega)
    simpa using h2
  exact hp.imp (fun hlt => h _ _ hlt)

/-! ## Claim C4: window counts (2 windows for a 10-hour span with the
default 5-hour increment; 1 window when a bound is unset) -/

/-- C4.  With `StartTime = T0 > 0`, `EndTime = T0 + 10h` and a
granularity outside `(0, 30]` (so the default 5-hour increment applies),
`CandleSticks` generates exactly the two windows
`[T0, T0+5h)` and `[T0+5h, T0+10h)` and stops; with either time unset
(the Go zero time), exactly one window is generated regardless of the
increment, throttle, cap or cancel oracle. -/
theorem window_generation_count_claim :
    (∀ (csr : CandleStickRequest) (T0 : Int), 0 < T0 →
      csr.startTime = T0 → csr.endTime = T0 + 10 * nsPerHour →
      ¬(0 < csr.granularityInSeconds ∧ csr.granularityInSeconds ≤ 30) →
      ∀ fuel : Nat, 2 ≤ fuel →
        candleSticksWindows csr (fun _ => false) fuel
          = [⟨1, T0, T0 + 5 * nsPerHour⟩,
             ⟨2, T0 + 5 * nsPerHour, T0 + 10 * nsPerHour⟩]) ∧
    (∀ (csr : CandleStickRequest) (cancel : Nat → Bool) (fuel : Nat),
      1 ≤ fuel → (csr.startTime = zeroTime ∨ csr.endTime = zeroTime) →
      candleSticksWindows csr cancel fuel
        = [⟨1, csr.startTime, initialEndTime csr⟩]) := by
  constructor
  · intro csr T0 hT0 hstart hend hg fuel hfuel
    have hinc : durationIncrement csr = 5 * nsPerHour := by
      simp only [durationIncrement]
      rw [if_neg hg]
    have h10 : (0 : Int) < 10 * nsPerHour := by
      norm_num [nsPerHour, nsPerSecond]
    have hcan : canPaginateTime csr = true := by
      rw [canPaginateTime_iff, hstart, hend]
      exact ⟨hT0, by omega⟩
    have hM : effectiveMaxPageNumber csr = 2 := by
      rw [effectiveMaxPageNumber_eq csr hcan, hstart, hend, hinc]
      have h9 : T0 + 10 * nsPerHour - T0 = 10 * nsPerHour := by ring
      rw [h9]
      decide
    have hnum : numWindows csr = 2 := by rw [numWindows, hM]; rfl
    rw [candleSticksWindows_closed_form csr hcan fuel (by omega), hnum]
    simp only [List.range'_succ, List.range'_one, List.map_cons,
      List.map_nil, windowAt, hstart, hinc]
    norm_num
    ring
  · intro csr cancel fuel hfuel h0
    rcases fuel with _ | fuel
    · omega
    simp only [zeroTime] at h0
    have hterm : shouldTerminate csr csr.startTime (initialEndTime csr)
        ((0 : Int) + 1) = true := by
      simp only [shouldTerminate, zeroTime]
      rw [if_pos h0]
    simp only [candleSticksWindows, genWindows, Nat.cast_zero, hterm]
    norm_num

/-- C4 witness: the two concrete runs. -/
theorem window_generation_count_claim_witness :
    candleSticksWindows
        ⟨"ETH-USD", nsPerHour, nsPerHour + 10 * nsPerHour, 0, 0, 0⟩
        (fun _ => false) 2
      = [⟨1, nsPerHour, nsPerHour + 5 * nsPerHour⟩,
         ⟨2, nsPerHour + 5 * nsPerHour, nsPerHour + 10 * nsPerHour⟩] ∧
    candleSticksWindows ⟨"BTC-USD", 0, 42, 7, 0, 31⟩ (fun _ => true) 1
      = [⟨1, 0, initialEndTime ⟨"BTC-USD", 0, 42, 7, 0, 31⟩⟩] :=
  ⟨window_generation_count_claim.1 _ nsPerHour
      (by norm_num [nsPerHour, nsPerSecond]) rfl rfl (by decide) 2
      (by decide),
   window_generation_count_claim.2 _ _ 1 (by decide) (Or.inl rfl)⟩

/-! ## Claim C5: the effective window cap (corrected) -/

/-- C5 counterexample.  With a 10-hour span, the default 5-hour
increment and a caller-supplied `MaxPageNumber = 1`, the code's
effective cap is 2 (span divided by increment), not the caller's
smaller explicit maximum 1 demanded by the claim. -/
theorem effective_cap_counterexample :
    effectiveMaxPageNumber
        ⟨"ETH-USD", nsPerHour, nsPerHour + 10 * nsPerHour, 1, 0, 0⟩ = 2 ∧
    specEffectiveCap
        ⟨"ETH-USD", nsPerHour, nsPerHour + 10 * nsPerHour, 1, 0, 0⟩ = 1 ∧
    effectiveMaxPageNumber
        ⟨"ETH-USD", nsPerHour, nsPerHour + 10 * nsPerHour, 1, 0, 0⟩
      ≠ specEffectiveCap
        ⟨"ETH-USD", nsPerHour, nsPerHour + 10 * nsPerHour, 1, 0, 0⟩ := by
  refine ⟨by decide, by decide, by decide⟩

/-- C5 amended.  When both times are meaningfully set, the effective
cap is always the span divided by the increment: the caller's explicit
`MaxPageNumber` is overwritten and ignored, even when smaller; with no
cancellation and enough fuel the run generates `max(cap, 1)` windows. -/
theorem effective_cap_ignores_caller_max_amended :
    ∀ csr : CandleStickRequest, canPaginateTime csr = true →
      effectiveMaxPageNumber csr
          = Int.tdiv (csr.endTime - csr.startTime) (durationIncrement csr) ∧
      ∀ fuel : Nat, numWindows csr ≤ fuel →
        (candleSticksWindows csr (fun _ => false) fuel).length
          = numWindows csr := by
  intro csr hcan
  obtain ⟨h1, h2⟩ := (canPaginateTime_iff csr).1 hcan
  constructor
  · rw [effectiveMaxPageNumber_eq csr hcan]
    exact (Int.tdiv_eq_ediv (by omega)
      (le_of_lt (durationIncrement_pos csr))).symm
  · intro fuel hf
    rw [candleSticksWindows_closed_form csr hcan fuel hf]
    simp

/-- C5 witness: the concrete run with caller maximum 1 has effective
cap span/increment and produces 2 windows. -/
theorem effective_cap_ignores_caller_max_amended_witness :
    effectiveMaxPageNumber
        ⟨"ETH-USD", nsPerHour, nsPerHour + 10 * nsPerHour, 1, 0, 0⟩
      = Int.tdiv
          ((⟨"ETH-USD", nsPerHour, nsPerHour + 10 * nsPerHour, 1, 0, 0⟩ :
            CandleStickRequest).endTime
            - (⟨"ETH-USD", nsPerHour, nsPerHour + 10 * nsPerHour, 1, 0, 0⟩ :
              CandleStickRequest).startTime)
          (durationIncrement
            ⟨"ETH-USD", nsPerHour, nsPerHour + 10 * nsPerHour, 1, 0, 0⟩) ∧
    (candleSticksWindows
        ⟨"ETH-USD", nsPerHour, nsPerHour + 10 * nsPerHour, 1, 0, 0⟩
        (fun _ => false) 5).length
      = numWindows ⟨"ETH-USD", nsPerHour, nsPerHour + 10 * nsPerHour, 1, 0, 0⟩ :=
  ⟨(effective_cap_ignores_caller_max_amended _ (by decide)).1,
   (effective_cap_ignores_caller_max_amended _ (by decide)).2 5 (by decide)⟩

/-! ## Claim C6: window chaining and coverage (corrected) -/

/-- C6 counterexample.  With `StartTime = 1h`, `EndTime = 1h + 7h` and
the default 5-hour increment, the only generated window is
`[1h, 1h+5h)`: the instant `1h + 6h` lies in the requested interval
`[StartTime, EndTime)` but in no generated window, so the union of
windows does not cover the request. -/
theorem window_coverage_counterexample :
    (candleSticksWindows
        ⟨"ETH-USD", nsPerHour, nsPerHour + 7 * nsPerHour, 0, 0, 0⟩
        (fun _ => false) 10).length = 1 ∧
    (nsPerHour ≤ nsPerHour + 6 * nsPerHour ∧
      nsPerHour + 6 * nsPerHour < nsPerHour + 7 * nsPerHour) ∧
    ∀ w ∈ candleSticksWindows
        ⟨"ETH-USD", nsPerHour, nsPerHour + 7 * nsPerHour, 0, 0, 0⟩
        (fun _ => false) 10,
      ¬ (w.startTime ≤ nsPerHour + 6 * nsPerHour ∧
         nsPerHour + 6 * nsPerHour < w.endTime) := by
  refine ⟨by decide, by decide, by decide⟩

/-- C6 amended.  For a paginating, uncancelled run with enough fuel:
every window has `end = start + increment`; each subsequent window
starts where the previous one ends; windows are pairwise disjoint
ordered half-open intervals; and their union is exactly
`[StartTime, StartTime + count·increment)` — which covers the whole of
`[StartTime, EndTime)` only when the increment divides the span (or the
span is smaller than one increment); otherwise the tail of the request
is not covered. -/
theorem window_partition_amended :
    ∀ csr : CandleStickRequest, canPaginateTime csr = true →
    ∀ fuel : Nat, numWindows csr ≤ fuel →
      (∀ w ∈ candleSticksWindows csr (fun _ => false) fuel,
        w.endTime = w.startTime + durationIncrement csr) ∧
      List.Chain' (fun a b => b.startTime = a.endTime)
        (candleSticksWindows csr (fun _ => false) fuel) ∧
      List.Pairwise (fun a b => a.endTime ≤ b.startTime)
        (candleSticksWindows csr (fun _ => false) fuel) ∧
      (∀ t : Int,
        (∃ w ∈ candleSticksWindows csr (fun _ => false) fuel,
          w.startTime ≤ t ∧ t < w.endTime) ↔
        (csr.startTime ≤ t ∧
          t < csr.startTime
            + ((candleSticksWindows csr (fun _ => false) fuel).length : Int)
              * durationIncrement csr)) := by
  intro csr hcan fuel hfuel
  have hinc : 0 < durationIncrement csr := durationIncrement_pos csr
  rw [candleSticksWindows_closed_form csr hcan fuel hfuel]
  refine ⟨?_, ?_, ?_, ?_⟩
  · intro w hw
    obtain ⟨k, _, rfl⟩ := List.mem_map.1 hw
    simp only [windowAt]
    ring
  · refine chain_range_map _ _ ?_ _ _
    intro k
    simp only [windowAt]
    push_cast
    ring
  · refine pairwise_range_map _ _ ?_ _ _
    intro j k hjk
    simp only [windowAt]
    have hjk' : (j : Int) + 1 ≤ (k : Int) := by exact_mod_cast hjk
    have := mul_le_mul_of_nonneg_right hjk' (le_of_lt hinc)
    linarith
  · intro t
    simp only [List.length_map, List.length_range', Nat.cast_ofNat]
    constructor
    · rintro ⟨w, hw, hle, hlt⟩
      obtain ⟨k, hk, rfl⟩ := List.mem_map.1 hw
      rw [List.mem_range'_1] at hk
      simp only [windowAt] at hle hlt
      have hk2 : (k : Int) < (numWindows csr : Int) := by
        exact_mod_cast (by omega : k < numWindows csr)
      have hk' : (k : Int) + 1 ≤ (numWindows csr : Int) := by omega
      have hknn : (0 : Int) ≤ (k : Int) := Int.ofNat_nonneg k
      have h3 := mul_le_mul_of_nonneg_right hk' (le_of_lt hinc)
      constructor
      · nlinarith
      · linarith
    · rintro ⟨hle, hlt⟩
      set d := t - csr.startTime with hd
      have hd0 : 0 ≤ d := by omega
      set kI := d / durationIncrement csr with hkI
      have hkI0 : 0 ≤ kI := Int.ediv_nonneg hd0 (le_of_lt hinc)
      have hklt : kI < (numWindows csr : Int) := by
        rw [hkI]
        rw [Int.ediv_lt_iff_lt_mul hinc]
        omega
      have hlow : kI * durationIncrement csr ≤ d := by
        rw [hkI]
        exact Int.ediv_mul_le d (by omega)
      have hhigh : d < (kI + 1) * durationIncrement csr := by
        rw [hkI]
        exact Int.lt_ediv_add_one_mul_self d hinc
      refine ⟨windowAt csr kI.toNat, List.mem_map.2
        ⟨kI.toNat, List.mem_range'_1.2 ⟨Nat.zero_le _, ?_⟩, rfl⟩, ?_, ?_⟩
      · have : (kI.toNat : Int) < (numWindows csr : Int) := by
          rwa [Int.toNat_of_nonneg hkI0]
        omega
      · simp only [windowAt]
        rw [Int.toNat_of_nonneg hkI0]
        omega
      · simp only [windowAt]
        rw [Int.toNat_of_nonneg hkI0]
        omega

/-- C6 witness: the 10-hour run chains its two windows and its union is
exactly the requested interval there (the increment divides the span). -/
theorem window_partition_amended_witness :
    List.Chain' (fun a b => b.startTime = a.endTime)
      (candleSticksWindows
        ⟨"ETH-USD", nsPerHour, nsPerHour + 10 * nsPerHour, 0, 0, 0⟩
        (fun _ => false) 2) ∧
    ((∃ w ∈ candleSticksWindows
        ⟨"ETH-USD", nsPerHour, nsPerHour + 10 * nsPerHour, 0, 0, 0⟩
        (fun _ => false) 2,
        w.startTime ≤ nsPerHour + 7 * nsPerHour ∧
        nsPerHour + 7 * nsPerHour < w.endTime) ↔
      ((⟨"ETH-USD", nsPerHour, nsPerHour + 10 * nsPerHour, 0, 0, 0⟩ :
          CandleStickRequest).startTime ≤ nsPerHour + 7 * nsPerHour ∧
        nsPerHour + 7 * nsPerHour
          < (⟨"ETH-USD", nsPerHour, nsPerHour + 10 * nsPerHour, 0, 0, 0⟩ :
              CandleStickRequest).startTime
            + (((candleSticksWindows
                ⟨"ETH-USD", nsPerHour, nsPerHour + 10 * nsPerHour, 0, 0, 0⟩
                (fun _ => false) 2).length : Int))
              * durationIncrement
                  ⟨"ETH-USD", nsPerHour, nsPerHour + 10 * nsPerHour, 0, 0, 0⟩)) :=
  ⟨(window_partition_amended _ (by decide) 2 (by decide)).2.1,
   (window_partition_amended _ (by decide) 2 (by decide)).2.2.2
     (nsPerHour + 7 * nsPerHour)⟩

/-- C10 witness: a whitespace-only account id and an empty product are
rejected synchronously. -/
theorem list_accounts_never_fails_sync_claim_witness :
    listAddressesSync (some ⟨"  ", 1, 0, "", "", "", 0⟩) =
      Except.error errEmptyAccountID ∧
    candleSticksSync (some ⟨"", 5, 9, 0, 0, 0⟩) =
      Except.error errBlankProduct :=
  ⟨list_accounts_never_fails_sync_claim.2.2.2.1 _ (by decide),
   list_accounts_never_fails_sync_claim.2.2.2.2.2 _ rfl⟩

end Coinbase
